import Mathlib

/-!
# Ingress controller: payload construction and single-object reconcile

A shallow embedding of `controllers/ingress_controller.go`:

* the closures `addBackend` and `onChange` of `Watcher.Reconcile`, which read
  the three informer caches and build one `Payload` per pass;
* `IngressReconciler.Reconcile`, the per-object entry point.

Go maps are association lists with unique keys, nil-able pointers are
`Option`, a nil-pointer dereference is the outcome `Outcome.panic`, and the
Change Sink is observed through the list of payloads it was invoked with.
-/

namespace Controllers

/-! ## Go maps -/

/-- Go `map[string]V`: an association list; `set` overwrites in place, so keys
stay unique. -/
abbrev GoMap (V : Type) := List (String × V)

namespace GoMap

/-- Value of `make(map[string]V)`. -/
def empty {V : Type} : GoMap V := []

/-- Lookup `m[k]` with the presence flag. -/
def get {V : Type} : GoMap V → String → Option V
  | [], _ => none
  | (k', v) :: rest, k => if k' = k then some v else get rest k

/-- Assignment `m[k] = v`. -/
def set {V : Type} : GoMap V → String → V → GoMap V
  | [], k, v => [(k, v)]
  | (k', v') :: rest, k, v =>
    if k' = k then (k, v) :: rest else (k', v') :: set rest k v

/-- Keys present in the map. -/
def keys {V : Type} (m : GoMap V) : List String := m.map Prod.fst

end GoMap

/-! ## Cluster objects (the fields the controller reads) -/

/-- Type `corev1.ServicePort`: `Port` is an `int32`. -/
structure ServicePort where
  Name : String
  Port : Int
  deriving DecidableEq, Repr

/-- Type `corev1.ServiceSpec`. -/
structure ServiceSpec where
  Ports : List ServicePort
  deriving DecidableEq, Repr

/-- Type `corev1.Service`. -/
structure Service where
  Namespace : String
  Name : String
  Spec : ServiceSpec
  deriving DecidableEq, Repr

/-- Type `corev1.Secret`; `Data` is `map[string][]byte`. -/
structure Secret where
  Namespace : String
  Name : String
  Data : GoMap (List Nat)
  deriving DecidableEq, Repr

/-- Type `networking.IngressServiceBackend`. -/
structure IngressServiceBackend where
  Name : String
  deriving DecidableEq, Repr

/-- Type `networking.IngressBackend`: `Service` is a pointer, nil when the
backend names a resource instead of a service. -/
structure IngressBackend where
  Service : Option IngressServiceBackend
  deriving DecidableEq, Repr

/-- Type `networking.HTTPIngressPath`. -/
structure HTTPIngressPath where
  Path : String
  Backend : IngressBackend
  deriving DecidableEq, Repr

/-- Type `networking.HTTPIngressRuleValue`. -/
structure HTTPIngressRuleValue where
  Paths : List HTTPIngressPath
  deriving DecidableEq, Repr

/-- Type `networking.IngressRule`: `HTTP` is a pointer, nil when the host rule
has no HTTP path set. -/
structure IngressRule where
  Host : String
  HTTP : Option HTTPIngressRuleValue
  deriving DecidableEq, Repr

/-- Type `networking.IngressTLS`. -/
structure IngressTLS where
  Hosts : List String
  SecretName : String
  deriving DecidableEq, Repr

/-- Type `networking.IngressSpec`: `DefaultBackend` is a pointer. -/
structure IngressSpec where
  DefaultBackend : Option IngressBackend
  Rules : List IngressRule
  TLS : List IngressTLS
  deriving DecidableEq, Repr

/-- Type `networking.Ingress`. -/
structure Ingress where
  Namespace : String
  Name : String
  Spec : IngressSpec
  deriving DecidableEq, Repr

/-! ## Payload types -/

/-- An IngressPayload is an ingress + its service ports. -/
structure IngressPayload where
  Ingress : Ingress
  ServicePorts : GoMap (GoMap Int)
  deriving DecidableEq, Repr

/-- A Payload is a collection of Kubernetes data loaded by the watcher. `Cert`
stands for `tls.Certificate`. -/
structure Payload (Cert : Type) where
  Ingresses : List IngressPayload
  TLSCertificates : GoMap Cert
  deriving DecidableEq, Repr

/-! ## Control outcomes -/

/-- Result of running a piece of Go code that may hit a nil-pointer
dereference. -/
inductive Outcome (α : Type) where
  | ok (a : α)
  | panic
  deriving DecidableEq, Repr

namespace Outcome

/-- Sequencing: a panic stops everything after it. -/
def bind {α β : Type} : Outcome α → (α → Outcome β) → Outcome β
  | ok a, f => f a
  | panic, _ => panic

end Outcome

/-- Dereference `*p` / field access `p.f` through a pointer: panics on nil. -/
def deref {α : Type} : Option α → Outcome α
  | some a => Outcome.ok a
  | none => Outcome.panic

/-! ## Informer caches -/

/-- Contents of the three listers at the moment a pass runs. `ingressList` is
the result of `ingressLister.List(labels.Everything())`; the service and secret
stores are indexed by the object's own namespace and name. -/
structure Caches where
  ingressList : Except String (List Ingress)
  services : List Service
  secrets : List Secret

/-- Call `serviceLister.Services(ns).Get(name)`; `none` is the not-found error. -/
def servicesGet (services : List Service) (ns name : String) : Option Service :=
  services.find? (fun s => decide (s.Namespace = ns ∧ s.Name = name))

/-- Call `secretLister.Secrets(ns).Get(name)`; `none` is the not-found error. -/
def secretsGet (secrets : List Secret) (ns name : String) : Option Secret :=
  secrets.find? (fun s => decide (s.Namespace = ns ∧ s.Name = name))

/-- Index `secret.Data[key]`: the nil (empty) slice when the key is absent. -/
def dataAt (secret : Secret) (key : String) : List Nat :=
  (GoMap.get secret.Data key).getD []

/-! ## Watcher.Reconcile -/

namespace Watcher

/-- The loop `for _, port := range svc.Spec.Ports { m[port.Name] = int(port.Port) }`
started from `m`. -/
def portLoop : List ServicePort → GoMap Int → GoMap Int
  | [], m => m
  | port :: rest, m => portLoop rest (GoMap.set m port.Name port.Port)

/-- Closure `addBackend` (lines 108-122). `backend.Service.Name` dereferences
the `Service` pointer before the lookup. An unknown service is logged and the
payload is left as it was. -/
def addBackend (services : List Service) (ingressPayload : IngressPayload)
    (backend : IngressBackend) : Outcome IngressPayload :=
  (deref backend.Service).bind fun service =>
    match servicesGet services ingressPayload.Ingress.Namespace service.Name with
    | none => Outcome.ok ingressPayload
    | some svc =>
      let m := portLoop svc.Spec.Ports GoMap.empty
      Outcome.ok ⟨ingressPayload.Ingress, GoMap.set ingressPayload.ServicePorts svc.Name m⟩

/-- The loop `for _, path := range rule.HTTP.Paths { addBackend(&ingressPayload, path.Backend) }`. -/
def pathLoop (services : List Service) :
    List HTTPIngressPath → IngressPayload → Outcome IngressPayload
  | [], ip => Outcome.ok ip
  | path :: rest, ip => (addBackend services ip path.Backend).bind (pathLoop services rest)

/-- The loop over `ingress.Spec.Rules` (lines 145-152): a rule whose `HTTP` is
not nil is skipped by `continue`; otherwise `rule.HTTP.Paths` is read through
the pointer. -/
def ruleLoop (services : List Service) :
    List IngressRule → IngressPayload → Outcome IngressPayload
  | [], ip => Outcome.ok ip
  | rule :: rest, ip =>
    if rule.HTTP ≠ none then ruleLoop services rest ip
    else
      (deref rule.HTTP).bind fun http =>
        (pathLoop services http.Paths ip).bind (ruleLoop services rest)

/-- The loop over `ingress.Spec.TLS` (lines 154-178), threading
`payload.TLSCertificates`. `X509KeyPair` is `tls.X509KeyPair`, `none` its
error. -/
def tlsLoop {Cert : Type} (X509KeyPair : List Nat → List Nat → Option Cert)
    (secrets : List Secret) (ns : String) : List IngressTLS → GoMap Cert → GoMap Cert
  | [], certs => certs
  | rec :: rest, certs =>
    if rec.SecretName ≠ "" then
      match secretsGet secrets ns rec.SecretName with
      | none => tlsLoop X509KeyPair secrets ns rest certs
      | some secret =>
        match X509KeyPair (dataAt secret "tls.crt") (dataAt secret "tls.key") with
        | none => tlsLoop X509KeyPair secrets ns rest certs
        | some cert => tlsLoop X509KeyPair secrets ns rest (GoMap.set certs rec.SecretName cert)
    else tlsLoop X509KeyPair secrets ns rest certs

/-- Body of `for _, ingress := range ingresses` (lines 136-178). The element
appended to `payload.Ingresses` at line 140 is a struct copy that shares the
`ServicePorts` map with the local `ingressPayload`, so the writes made by
`addBackend` afterwards are visible through the slice; the element is therefore
given here with the map as it stands after the backend loops. -/
def ingressBody {Cert : Type} (X509KeyPair : List Nat → List Nat → Option Cert)
    (services : List Service) (secrets : List Secret) (ingress : Ingress)
    (payload : Payload Cert) : Outcome (Payload Cert) :=
  let ingressPayload : IngressPayload := ⟨ingress, GoMap.empty⟩
  (match ingress.Spec.DefaultBackend with
    | some backend => addBackend services ingressPayload backend
    | none => Outcome.ok ingressPayload).bind fun ip1 =>
  (ruleLoop services ingress.Spec.Rules ip1).bind fun ip2 =>
  Outcome.ok ⟨payload.Ingresses ++ [ip2],
    tlsLoop X509KeyPair secrets ingress.Namespace ingress.Spec.TLS payload.TLSCertificates⟩

/-- The loop `for _, ingress := range ingresses`. -/
def ingressLoop {Cert : Type} (X509KeyPair : List Nat → List Nat → Option Cert)
    (services : List Service) (secrets : List Secret) :
    List Ingress → Payload Cert → Outcome (Payload Cert)
  | [], payload => Outcome.ok payload
  | ingress :: rest, payload =>
    (ingressBody X509KeyPair services secrets ingress payload).bind
      (ingressLoop X509KeyPair services secrets rest)

/-- Closure `onChange` (lines 124-182), one reconciliation pass. The value is
the list of payloads the Change Sink `w.onChange` was invoked with during the
pass, or `panic` when the pass died on a nil pointer (the only sink call is the
last statement, so a panicking pass has made none). A listing error returns
before the sink is reached. -/
def onChange {Cert : Type} (X509KeyPair : List Nat → List Nat → Option Cert)
    (c : Caches) : Outcome (List (Payload Cert)) :=
  match c.ingressList with
  | Except.error _ => Outcome.ok []
  | Except.ok ingresses =>
    (ingressLoop X509KeyPair c.services c.secrets ingresses ⟨[], GoMap.empty⟩).bind
      fun payload => Outcome.ok [payload]

end Watcher

/-! ## IngressReconciler.Reconcile -/

/-- Type `ctrl.Result`. -/
structure Result where
  Requeue : Bool
  RequeueAfter : Nat
  deriving DecidableEq, Repr

/-- The zero value `ctrl.Result{}`. -/
def Result.zero : Result := ⟨false, 0⟩

namespace IngressReconciler

/-- Method `IngressReconciler.Reconcile` (lines 65-85). `getErr` is the error
returned by `r.Get` (`none` is nil) and `IsNotFound` is
`apierrors.IsNotFound`. The second component is the returned error. -/
def Reconcile {Err : Type} (IsNotFound : Err → Bool) (getErr : Option Err) :
    Result × Option Err :=
  match getErr with
  | some err =>
    if IsNotFound err then (Result.zero, none)
    else (Result.zero, some err)
  | none => (Result.zero, none)

end IngressReconciler

/-! ## Sample cluster contents -/

/-- A stand-in for `tls.X509KeyPair`: accepts exactly a non-empty certificate
with a non-empty key and returns the two byte strings. -/
def sampleKeyPair (crt key : List Nat) : Option (List Nat × List Nat) :=
  if crt ≠ [] ∧ key ≠ [] then some (crt, key) else none

/-- Service `ns/svc-a` with port `http` = 8080. -/
def svcA : Service := ⟨"ns", "svc-a", ⟨[⟨"http", 8080⟩]⟩⟩

/-- Rule `ns/r1` whose default backend is `svc-a`. -/
def r1 : Ingress := ⟨"ns", "r1", ⟨some ⟨some ⟨"svc-a"⟩⟩, [], []⟩⟩

/-- Caches holding `r1` and `svc-a`. -/
def cachesR1 : Caches := ⟨Except.ok [r1], [svcA], []⟩

/-- The payload expected for `cachesR1`. -/
def payloadR1 : Payload (List Nat × List Nat) :=
  ⟨[⟨r1, [("svc-a", [("http", 8080)])]⟩], []⟩

/-- Rule `ns/r-path`: no default backend, one host rule whose single path `/`
points at `svc-a`. -/
def rPath : Ingress :=
  ⟨"ns", "r-path", ⟨none, [⟨"example.com", some ⟨[⟨"/", ⟨some ⟨"svc-a"⟩⟩⟩]⟩⟩], []⟩⟩

/-- Caches holding `r-path` and `svc-a`. -/
def cachesPath : Caches := ⟨Except.ok [rPath], [svcA], []⟩

/-- Rule `ns/r-bare`: one host rule without an HTTP path set, nothing else. -/
def rBare : Ingress := ⟨"ns", "r-bare", ⟨none, [⟨"example.com", none⟩], []⟩⟩

/-- Caches holding only `r-bare`. -/
def cachesBare : Caches := ⟨Except.ok [rBare], [], []⟩

/-- Rule `ns/r-res`: its default backend names no service. -/
def rRes : Ingress := ⟨"ns", "r-res", ⟨some ⟨none⟩, [], []⟩⟩

/-- Caches whose listing succeeds with `r1` followed by `r-bare`. -/
def cachesMixed : Caches := ⟨Except.ok [r1, rBare], [svcA], []⟩

/-- Caches whose listing succeeds with `r-res` alone. -/
def cachesRes : Caches := ⟨Except.ok [rRes], [svcA], []⟩

/-- Secret `ns/tls-a` with certificate and key bytes. -/
def secretTlsA : Secret := ⟨"ns", "tls-a", [("tls.crt", [1, 2]), ("tls.key", [3])]⟩

/-- Rule `ns/r2` with a TLS binding to `tls-a`. -/
def r2 : Ingress := ⟨"ns", "r2", ⟨none, [], [⟨["example.com"], "tls-a"⟩]⟩⟩

/-- Rule `ns/r3` with a TLS binding to `tls-a`. -/
def r3 : Ingress := ⟨"ns", "r3", ⟨none, [], [⟨["example.org"], "tls-a"⟩]⟩⟩

/-- Caches holding `r2` and the secret `tls-a`. -/
def cachesR2 : Caches := ⟨Except.ok [r2], [], [secretTlsA]⟩

/-- The payload expected for `cachesR2`. -/
def payloadR2 : Payload (List Nat × List Nat) := ⟨[⟨r2, []⟩], [("tls-a", ([1, 2], [3]))]⟩

/-- Caches holding `r2` and `r3`, same namespace, and the secret `tls-a`. -/
def cachesSameNs : Caches := ⟨Except.ok [r2, r3], [], [secretTlsA]⟩

/-- The payload expected for `cachesSameNs`. -/
def payloadSameNs : Payload (List Nat × List Nat) :=
  ⟨[⟨r2, []⟩, ⟨r3, []⟩], [("tls-a", ([1, 2], [3]))]⟩

/-- Secret `ns1/tls-a`. -/
def secretNs1 : Secret := ⟨"ns1", "tls-a", [("tls.crt", [1]), ("tls.key", [1])]⟩

/-- Secret `ns2/tls-a`, different material under the same name. -/
def secretNs2 : Secret := ⟨"ns2", "tls-a", [("tls.crt", [2]), ("tls.key", [2])]⟩

/-- Rule `ns1/ra` with a TLS binding to `tls-a`. -/
def ra : Ingress := ⟨"ns1", "ra", ⟨none, [], [⟨[], "tls-a"⟩]⟩⟩

/-- Rule `ns2/rb` with a TLS binding to `tls-a`. -/
def rb : Ingress := ⟨"ns2", "rb", ⟨none, [], [⟨[], "tls-a"⟩]⟩⟩

/-- Caches with two rules in different namespaces sharing the secret name. -/
def cachesShared : Caches := ⟨Except.ok [ra, rb], [], [secretNs1, secretNs2]⟩

/-- Caches whose ingress listing fails. -/
def cachesListErr : Caches := ⟨Except.error "cache not synced", [svcA], [secretTlsA]⟩

/-- A stand-in for `apierrors.IsNotFound` on errors given by their reason. -/
def sampleIsNotFound (err : String) : Bool := err == "NotFound"

/-! ## Closed forms used in the proofs -/

/-- Successive assignments `m[k] = v` for the pairs of a list, in order. -/
def setAll {V : Type} : List (String × V) → GoMap V → GoMap V
  | [], m => m
  | kv :: rest, m => setAll rest (GoMap.set m kv.1 kv.2)

/-- The last pair of a list that carries the key `k`. -/
def lastFor {V : Type} (l : List (String × V)) (k : String) : Option V :=
  (l.reverse.find? (fun kv => decide (kv.1 = k))).map Prod.snd

/-- Lines 156-166 for one binding: fetch the secret in namespace `ns` and parse
its `tls.crt` / `tls.key`; `none` when either step fails. -/
def resolveTLS {Cert : Type} (X509KeyPair : List Nat → List Nat → Option Cert)
    (secrets : List Secret) (ns name : String) : Option Cert :=
  (secretsGet secrets ns name).bind fun secret =>
    X509KeyPair (dataAt secret "tls.crt") (dataAt secret "tls.key")

/-- The assignments the TLS loop of one ingress performs, in order. -/
def tlsWrites {Cert : Type} (X509KeyPair : List Nat → List Nat → Option Cert)
    (secrets : List Secret) (ns : String) (recs : List IngressTLS) : List (String × Cert) :=
  recs.filterMap fun rec =>
    if rec.SecretName ≠ "" then
      (resolveTLS X509KeyPair secrets ns rec.SecretName).map fun cert => (rec.SecretName, cert)
    else none

/-- The assignments to `payload.TLSCertificates` of a whole pass, in order. -/
def allTLSWrites {Cert : Type} (X509KeyPair : List Nat → List Nat → Option Cert)
    (secrets : List Secret) (ingresses : List Ingress) : List (String × Cert) :=
  ingresses.flatMap fun ing => tlsWrites X509KeyPair secrets ing.Namespace ing.Spec.TLS

/-- An ingress the loop body gets through without a nil dereference: its default
backend, if any, names a service, and every host rule has an HTTP path set. -/
def passable (ing : Ingress) : Bool :=
  (match ing.Spec.DefaultBackend with
    | some backend => backend.Service.isSome
    | none => true) &&
  ing.Spec.Rules.all fun rule => rule.HTTP.isSome

/-- The `ServicePorts` map the loop body leaves for a passable ingress. -/
def portsOf (services : List Service) (ing : Ingress) : GoMap (GoMap Int) :=
  match ing.Spec.DefaultBackend with
  | none => []
  | some backend =>
    match backend.Service with
    | none => []
    | some service =>
      match servicesGet services ing.Namespace service.Name with
      | none => []
      | some svc => [(svc.Name, Watcher.portLoop svc.Spec.Ports [])]

end Controllers

namespace Controllers

/-! ## Map lemmas -/

theorem GoMap.get_set {V : Type} (m : GoMap V) (k k' : String) (v : V) :
    GoMap.get (GoMap.set m k v) k' = if k = k' then some v else GoMap.get m k' := by
  induction m with
  | nil => simp [GoMap.set, GoMap.get]
  | cons hd tl ih =>
    obtain ⟨a, b⟩ := hd
    by_cases h : a = k
    · subst h
      by_cases h2 : a = k' <;> simp [GoMap.set, GoMap.get, h2]
    · by_cases h2 : a = k'
      · subst h2
        simp [GoMap.set, GoMap.get, h, Ne.symm h]
      · simp [GoMap.set, GoMap.get, h, h2, ih]

theorem GoMap.keys_set {V : Type} (m : GoMap V) (k : String) (v : V) :
    GoMap.keys (GoMap.set m k v) = if k ∈ GoMap.keys m then GoMap.keys m else GoMap.keys m ++ [k] := by
  induction m with
  | nil => simp [GoMap.set, GoMap.keys]
  | cons hd tl ih =>
    obtain ⟨a, b⟩ := hd
    by_cases h : a = k
    · subst h
      simp [GoMap.set, GoMap.keys]
    · have ih2 := ih
      simp only [GoMap.keys] at ih2
      by_cases hk : k ∈ List.map Prod.fst tl
      · simp [GoMap.set, GoMap.keys, h, hk, ih2]
      · simp [GoMap.set, GoMap.keys, h, hk, ih2, Ne.symm h]

theorem GoMap.mem_keys_iff {V : Type} (m : GoMap V) (k : String) :
    k ∈ GoMap.keys m ↔ ∃ v, GoMap.get m k = some v := by
  induction m with
  | nil => simp [GoMap.keys, GoMap.get]
  | cons hd tl ih =>
    obtain ⟨a, b⟩ := hd
    have ih2 := ih
    simp only [GoMap.keys] at ih2
    by_cases h : a = k
    · subst h
      simp [GoMap.keys, GoMap.get]
    · simp [GoMap.keys, GoMap.get, h, Ne.symm h, ih2]

theorem GoMap.nodup_set {V : Type} (m : GoMap V) (k : String) (v : V)
    (h : (GoMap.keys m).Nodup) : (GoMap.keys (GoMap.set m k v)).Nodup := by
  rw [GoMap.keys_set]
  split
  · exact h
  · rename_i hk
    exact List.Nodup.append h (List.nodup_singleton k) (by simpa using hk)

theorem setAll_append {V : Type} (l1 l2 : List (String × V)) (m : GoMap V) :
    setAll (l1 ++ l2) m = setAll l2 (setAll l1 m) := by
  induction l1 generalizing m with
  | nil => rfl
  | cons hd tl ih => simp [setAll, ih]

theorem setAll_nodup {V : Type} (l : List (String × V)) (m : GoMap V)
    (h : (GoMap.keys m).Nodup) : (GoMap.keys (setAll l m)).Nodup := by
  induction l generalizing m with
  | nil => exact h
  | cons hd tl ih => exact ih _ (GoMap.nodup_set m hd.1 hd.2 h)

theorem setAll_get {V : Type} (l : List (String × V)) (m : GoMap V) (k : String) :
    GoMap.get (setAll l m) k = (lastFor l k).or (GoMap.get m k) := by
  induction l generalizing m with
  | nil => simp [setAll, lastFor]
  | cons hd tl ih =>
    obtain ⟨a, b⟩ := hd
    simp only [setAll, ih, GoMap.get_set, lastFor, List.reverse_cons, List.find?_append]
    cases hfind : List.find? (fun kv => decide (kv.1 = k)) tl.reverse with
    | some kv => simp
    | none =>
      by_cases h : a = k
      · simp [h]
      · simp [h]

theorem lastFor_some_mem {V : Type} (l : List (String × V)) (k : String) (v : V)
    (h : lastFor l k = some v) : (k, v) ∈ l := by
  unfold lastFor at h
  cases hfind : List.find? (fun kv => decide (kv.1 = k)) l.reverse with
  | none => simp [hfind] at h
  | some kv =>
    rw [hfind] at h
    have h1 := List.find?_some hfind
    have h2 := List.mem_of_find?_eq_some hfind
    simp only [Option.map_some', Option.some.injEq] at h
    simp only [decide_eq_true_eq] at h1
    obtain ⟨a, b⟩ := kv
    simp only at h h1
    subst h; subst h1
    simpa using h2

theorem lastFor_none_iff {V : Type} (l : List (String × V)) (k : String) :
    lastFor l k = none ↔ k ∉ l.map Prod.fst := by
  unfold lastFor
  simp only [Option.map_eq_none', List.find?_eq_none, List.mem_reverse, decide_eq_true_eq,
    List.mem_map, not_exists, not_and]

/-! ## The loops in closed form -/

theorem servicesGet_some {services : List Service} {ns name : String} {svc : Service}
    (h : servicesGet services ns name = some svc) :
    svc ∈ services ∧ svc.Namespace = ns ∧ svc.Name = name := by
  unfold servicesGet at h
  have h1 := List.find?_some h
  simp only [decide_eq_true_eq] at h1
  exact ⟨List.mem_of_find?_eq_some h, h1.1, h1.2⟩

theorem portLoop_eq_setAll (ports : List ServicePort) (m : GoMap Int) :
    Watcher.portLoop ports m = setAll (ports.map fun port => (port.Name, port.Port)) m := by
  induction ports generalizing m with
  | nil => rfl
  | cons hd tl ih => simp [Watcher.portLoop, setAll, ih]

theorem portLoop_get (ports : List ServicePort) (n : String) :
    GoMap.get (Watcher.portLoop ports GoMap.empty) n
      = (ports.reverse.find? (fun port => decide (port.Name = n))).map (fun port => port.Port) := by
  rw [portLoop_eq_setAll, setAll_get]
  simp only [GoMap.empty, GoMap.get, Option.or_none, lastFor, ← List.map_reverse]
  induction ports.reverse with
  | nil => rfl
  | cons hd tl ih =>
    by_cases h : hd.Name = n
    · simp [List.find?, h]
    · simpa [List.find?, h] using ih

theorem portLoop_nodup (ports : List ServicePort) :
    (GoMap.keys (Watcher.portLoop ports GoMap.empty)).Nodup := by
  rw [portLoop_eq_setAll]
  exact setAll_nodup _ _ (by simp [GoMap.empty, GoMap.keys])

theorem ruleLoop_eq (services : List Service) (rules : List IngressRule) (ip : IngressPayload) :
    Watcher.ruleLoop services rules ip
      = if rules.all (fun rule => rule.HTTP.isSome) then Outcome.ok ip else Outcome.panic := by
  induction rules with
  | nil => simp [Watcher.ruleLoop]
  | cons hd tl ih =>
    cases hh : hd.HTTP with
    | none => simp [Watcher.ruleLoop, hh, deref, Outcome.bind]
    | some http => simp [Watcher.ruleLoop, hh, ih]

theorem tlsLoop_eq {Cert : Type} (X509KeyPair : List Nat → List Nat → Option Cert)
    (secrets : List Secret) (ns : String) (recs : List IngressTLS) (certs : GoMap Cert) :
    Watcher.tlsLoop X509KeyPair secrets ns recs certs
      = setAll (tlsWrites X509KeyPair secrets ns recs) certs := by
  induction recs generalizing certs with
  | nil => rfl
  | cons hd tl ih =>
    by_cases hn : hd.SecretName = ""
    · simp [Watcher.tlsLoop, tlsWrites, hn, List.filterMap_cons, ih]
    · cases hs : secretsGet secrets ns hd.SecretName with
      | none =>
        simp [Watcher.tlsLoop, tlsWrites, hn, List.filterMap_cons, ih, resolveTLS, hs]
      | some secret =>
        cases hx : X509KeyPair (dataAt secret "tls.crt") (dataAt secret "tls.key") with
        | none =>
          simp [Watcher.tlsLoop, tlsWrites, hn, List.filterMap_cons, ih, resolveTLS, hs, hx]
        | some cert =>
          simp [Watcher.tlsLoop, tlsWrites, hn, List.filterMap_cons, ih, resolveTLS, hs, hx,
            setAll]

theorem ingressBody_eq {Cert : Type} (X509KeyPair : List Nat → List Nat → Option Cert)
    (services : List Service) (secrets : List Secret) (ing : Ingress) (payload : Payload Cert) :
    Watcher.ingressBody X509KeyPair services secrets ing payload
      = if passable ing then
          Outcome.ok ⟨payload.Ingresses ++ [⟨ing, portsOf services ing⟩],
            setAll (tlsWrites X509KeyPair secrets ing.Namespace ing.Spec.TLS)
              payload.TLSCertificates⟩
        else Outcome.panic := by
  unfold Watcher.ingressBody passable portsOf
  simp only [tlsLoop_eq, ruleLoop_eq]
  cases hd : ing.Spec.DefaultBackend with
  | none =>
    by_cases hr : (ing.Spec.Rules.all fun rule => rule.HTTP.isSome) = true
    · simp [Outcome.bind, hr, GoMap.empty]
    · simp only [Bool.not_eq_true] at hr
      simp [Outcome.bind, hr]
  | some backend =>
    cases hs : backend.Service with
    | none => simp [Watcher.addBackend, deref, Outcome.bind, hs]
    | some service =>
      by_cases hr : (ing.Spec.Rules.all fun rule => rule.HTTP.isSome) = true
      · cases hg : servicesGet services ing.Namespace service.Name with
        | none => simp [Watcher.addBackend, deref, Outcome.bind, hs, hg, hr, GoMap.empty]
        | some svc =>
          simp [Watcher.addBackend, deref, Outcome.bind, hs, hg, hr, GoMap.empty, GoMap.set]
      · simp only [Bool.not_eq_true] at hr
        cases hg : servicesGet services ing.Namespace service.Name with
        | none => simp [Watcher.addBackend, deref, Outcome.bind, hs, hg, hr]
        | some svc => simp [Watcher.addBackend, deref, Outcome.bind, hs, hg, hr]

theorem ingressLoop_eq {Cert : Type} (X509KeyPair : List Nat → List Nat → Option Cert)
    (services : List Service) (secrets : List Secret) (ings : List Ingress)
    (payload : Payload Cert) :
    Watcher.ingressLoop X509KeyPair services secrets ings payload
      = if ings.all passable then
          Outcome.ok ⟨payload.Ingresses ++ ings.map (fun ing => ⟨ing, portsOf services ing⟩),
            setAll (allTLSWrites X509KeyPair secrets ings) payload.TLSCertificates⟩
        else Outcome.panic := by
  induction ings generalizing payload with
  | nil => simp [Watcher.ingressLoop, allTLSWrites, setAll]
  | cons hd tl ih =>
    by_cases hp : passable hd = true
    · simp only [Watcher.ingressLoop, ingressBody_eq, hp, if_true, Outcome.bind, ih,
        List.all_cons, Bool.true_and, allTLSWrites, List.flatMap_cons, setAll_append,
        List.map_cons, List.append_assoc, List.singleton_append]
    · simp only [Bool.not_eq_true] at hp
      simp [Watcher.ingressLoop, ingressBody_eq, hp, Outcome.bind]

/-- A pass over a listing that succeeded delivers exactly one payload, in closed
form, when every listed ingress is passable, and panics otherwise. -/
theorem onChange_eq {Cert : Type} (X509KeyPair : List Nat → List Nat → Option Cert)
    (c : Caches) (ings : List Ingress) (hlist : c.ingressList = Except.ok ings) :
    Watcher.onChange X509KeyPair c
      = if ings.all passable then
          Outcome.ok [⟨ings.map (fun ing => ⟨ing, portsOf c.services ing⟩),
            setAll (allTLSWrites X509KeyPair c.secrets ings) GoMap.empty⟩]
        else Outcome.panic := by
  unfold Watcher.onChange
  rw [hlist]
  simp only [ingressLoop_eq]
  by_cases hp : ings.all passable = true
  · simp [hp, Outcome.bind]
  · simp only [Bool.not_eq_true] at hp
    simp [hp, Outcome.bind]

theorem onChange_delivered {Cert : Type} {X509KeyPair : List Nat → List Nat → Option Cert}
    {c : Caches} {ings : List Ingress} {p : Payload Cert}
    (hlist : c.ingressList = Except.ok ings)
    (h : Watcher.onChange X509KeyPair c = Outcome.ok [p]) :
    p.Ingresses = ings.map (fun ing => ⟨ing, portsOf c.services ing⟩) ∧
    p.TLSCertificates = setAll (allTLSWrites X509KeyPair c.secrets ings) GoMap.empty := by
  rw [onChange_eq X509KeyPair c ings hlist] at h
  split at h
  · simp only [Outcome.ok.injEq, List.cons.injEq, and_true] at h
    subst h
    exact ⟨rfl, rfl⟩
  · exact absurd h (by simp)

theorem portsOf_cases (services : List Service) (ing : Ingress) :
    portsOf services ing = [] ∨
    ∃ backend service svc, ing.Spec.DefaultBackend = some backend ∧
      backend.Service = some service ∧
      servicesGet services ing.Namespace service.Name = some svc ∧
      portsOf services ing = [(svc.Name, Watcher.portLoop svc.Spec.Ports GoMap.empty)] := by
  unfold portsOf
  cases hd : ing.Spec.DefaultBackend with
  | none => exact Or.inl rfl
  | some backend =>
    cases hs : backend.Service with
    | none => exact Or.inl (by simp [hs])
    | some service =>
      cases hg : servicesGet services ing.Namespace service.Name with
      | none => exact Or.inl (by simp [hs, hg])
      | some svc => exact Or.inr ⟨backend, service, svc, rfl, hs, hg, by simp [hs, hg, GoMap.empty]⟩

theorem resolveTLS_eq_some {Cert : Type} (X509KeyPair : List Nat → List Nat → Option Cert)
    (secrets : List Secret) (ns name : String) (cert : Cert) :
    resolveTLS X509KeyPair secrets ns name = some cert ↔
      ∃ secret, secretsGet secrets ns name = some secret ∧
        X509KeyPair (dataAt secret "tls.crt") (dataAt secret "tls.key") = some cert := by
  unfold resolveTLS
  cases secretsGet secrets ns name with
  | none => simp
  | some secret => simp

theorem mem_allTLSWrites {Cert : Type} (X509KeyPair : List Nat → List Nat → Option Cert)
    (secrets : List Secret) (ings : List Ingress) (k : String) (cert : Cert) :
    (k, cert) ∈ allTLSWrites X509KeyPair secrets ings ↔
      ∃ ing ∈ ings, ∃ rec ∈ ing.Spec.TLS, rec.SecretName = k ∧ k ≠ "" ∧
        resolveTLS X509KeyPair secrets ing.Namespace k = some cert := by
  unfold allTLSWrites tlsWrites
  simp only [List.mem_flatMap, List.mem_filterMap]
  constructor
  · rintro ⟨ing, hing, rec, hrec, h⟩
    by_cases hn : rec.SecretName = ""
    · simp [hn] at h
    · simp only [ne_eq, hn, not_false_eq_true, if_true, Option.map_eq_some', Prod.mk.injEq] at h
      obtain ⟨c0, hc0, hk, hc⟩ := h
      subst hk; subst hc
      exact ⟨ing, hing, rec, hrec, rfl, hn, hc0⟩
  · rintro ⟨ing, hing, rec, hrec, hk, hn, hres⟩
    subst hk
    exact ⟨ing, hing, rec, hrec, by simp [hn, hres]⟩

theorem mem_keys_allTLSWrites {Cert : Type} (X509KeyPair : List Nat → List Nat → Option Cert)
    (secrets : List Secret) (ings : List Ingress) (k : String) :
    k ∈ (allTLSWrites X509KeyPair secrets ings).map Prod.fst ↔
      ∃ ing ∈ ings, ∃ rec ∈ ing.Spec.TLS, rec.SecretName = k ∧ k ≠ "" ∧
        ∃ cert, resolveTLS X509KeyPair secrets ing.Namespace k = some cert := by
  simp only [List.mem_map, Prod.exists, exists_and_right, exists_eq_right]
  constructor
  · rintro ⟨cert, h⟩
    obtain ⟨ing, hing, rec, hrec, hk, hn, hres⟩ :=
      (mem_allTLSWrites X509KeyPair secrets ings k cert).1 h
    exact ⟨ing, hing, rec, hrec, hk, hn, cert, hres⟩
  · rintro ⟨ing, hing, rec, hrec, hk, hn, cert, hres⟩
    exact ⟨cert, (mem_allTLSWrites X509KeyPair secrets ings k cert).2
      ⟨ing, hing, rec, hrec, hk, hn, hres⟩⟩

theorem setAll_empty_get {V : Type} (l : List (String × V)) (k : String) :
    GoMap.get (setAll l GoMap.empty) k = lastFor l k := by
  rw [setAll_get]
  simp [GoMap.empty, GoMap.get]

theorem setAll_empty_mem_keys {V : Type} (l : List (String × V)) (k : String) :
    k ∈ GoMap.keys (setAll l GoMap.empty) ↔ k ∈ l.map Prod.fst := by
  rw [GoMap.mem_keys_iff]
  simp only [setAll_empty_get]
  constructor
  · rintro ⟨v, hv⟩
    by_contra hnot
    rw [(lastFor_none_iff l k).2 hnot] at hv
    exact absurd hv (by simp)
  · intro hk
    cases hl : lastFor l k with
    | none => exact absurd hk ((lastFor_none_iff l k).1 hl)
    | some v => exact ⟨v, rfl⟩

/-! ## Claims -/

/-- Claim C1. In a pass that delivers a payload, for the listed rule at
position `i` whose default backend names a service found in the rule's own
namespace, the ingress payload at position `i` refers to that rule and its
`ServicePorts` holds, under the service's name, a map with one key per port
name whose value is the number of the last port carrying that name. -/
theorem c1_default_backend_ports {Cert : Type}
    (X509KeyPair : List Nat → List Nat → Option Cert) (c : Caches) (ingresses : List Ingress)
    (p : Payload Cert) (i : Nat) (ing : Ingress) (backend : IngressBackend)
    (service : IngressServiceBackend) (svc : Service)
    (hlist : c.ingressList = Except.ok ingresses)
    (hdeliv : Watcher.onChange X509KeyPair c = Outcome.ok [p])
    (hi : ingresses[i]? = some ing)
    (hb : ing.Spec.DefaultBackend = some backend)
    (hs : backend.Service = some service)
    (hsvc : servicesGet c.services ing.Namespace service.Name = some svc) :
    ∃ ip m, p.Ingresses[i]? = some ip ∧ ip.Ingress = ing ∧
      GoMap.get ip.ServicePorts service.Name = some m ∧
      (GoMap.keys m).Nodup ∧
      ∀ n, GoMap.get m n
        = (svc.Spec.Ports.reverse.find? (fun port => decide (port.Name = n))).map
            (fun port => port.Port) := by
  obtain ⟨hI, _⟩ := onChange_delivered hlist hdeliv
  have hname := (servicesGet_some hsvc).2.2
  refine ⟨⟨ing, portsOf c.services ing⟩, Watcher.portLoop svc.Spec.Ports GoMap.empty, ?_, rfl,
    ?_, portLoop_nodup _, portLoop_get _⟩
  · rw [hI, List.getElem?_map, hi]
    rfl
  · simp [portsOf, hb, hs, hsvc, GoMap.get, hname, GoMap.empty]

/-- Instance of C1 on the scenario `r1` / `svc-a` / `http` = 8080. -/
theorem c1_default_backend_ports_witness :
    Watcher.onChange sampleKeyPair cachesR1 = Outcome.ok [payloadR1] ∧
    ∃ ip m, payloadR1.Ingresses[0]? = some ip ∧ ip.Ingress = r1 ∧
      GoMap.get ip.ServicePorts "svc-a" = some m ∧
      (GoMap.keys m).Nodup ∧
      ∀ n, GoMap.get m n
        = (svcA.Spec.Ports.reverse.find? (fun port => decide (port.Name = n))).map
            (fun port => port.Port) :=
  ⟨by decide,
   c1_default_backend_ports sampleKeyPair cachesR1 [r1] payloadR1 0 r1 ⟨some ⟨"svc-a"⟩⟩
     ⟨"svc-a"⟩ svcA rfl (by decide) rfl rfl rfl (by decide)⟩

/-- Claim C2, evaluated where it fails. Rule `r-path` has a host rule with an
HTTP path set whose path `/` points at the existing service `svc-a`; the pass
delivers a payload in which the rule's `ServicePorts` is empty, with no entry
for `svc-a`. -/
theorem c2_path_backend_skipped :
    Watcher.onChange sampleKeyPair cachesPath = Outcome.ok [⟨[⟨rPath, []⟩], []⟩] ∧
    servicesGet cachesPath.services rPath.Namespace "svc-a" = some svcA ∧
    GoMap.get (GoMap.empty : GoMap (GoMap Int)) "svc-a" = none := by
  decide

/-- Claim C3. In a pass that delivers a payload, every ingress payload belongs
to a listed rule, every key of its `ServicePorts` is the name of a service that
a backend of that rule (default or path) refers to and that the service cache
holds in the rule's namespace, the value being that service's port map; a name
the cache cannot find in that namespace is not a key and has no value. -/
theorem c3_service_ports_keys {Cert : Type}
    (X509KeyPair : List Nat → List Nat → Option Cert) (c : Caches) (ingresses : List Ingress)
    (p : Payload Cert) (ip : IngressPayload)
    (hlist : c.ingressList = Except.ok ingresses)
    (hdeliv : Watcher.onChange X509KeyPair c = Outcome.ok [p])
    (hip : ip ∈ p.Ingresses) :
    ip.Ingress ∈ ingresses ∧
    (∀ k ∈ GoMap.keys ip.ServicePorts,
      (∃ backend service,
        (ip.Ingress.Spec.DefaultBackend = some backend ∨
          ∃ rule ∈ ip.Ingress.Spec.Rules, ∃ http, rule.HTTP = some http ∧
            ∃ path ∈ http.Paths, path.Backend = backend) ∧
        backend.Service = some service ∧ service.Name = k) ∧
      ∃ svc, servicesGet c.services ip.Ingress.Namespace k = some svc ∧ svc.Name = k ∧
        GoMap.get ip.ServicePorts k = some (Watcher.portLoop svc.Spec.Ports GoMap.empty)) ∧
    (∀ name, servicesGet c.services ip.Ingress.Namespace name = none →
      name ∉ GoMap.keys ip.ServicePorts ∧ GoMap.get ip.ServicePorts name = none) := by
  obtain ⟨hI, _⟩ := onChange_delivered hlist hdeliv
  rw [hI, List.mem_map] at hip
  obtain ⟨ing, hing, rfl⟩ := hip
  have hkeys : ∀ k ∈ GoMap.keys (portsOf c.services ing),
      (∃ backend service, ing.Spec.DefaultBackend = some backend ∧
        backend.Service = some service ∧ service.Name = k) ∧
      ∃ svc, servicesGet c.services ing.Namespace k = some svc ∧ svc.Name = k ∧
        GoMap.get (portsOf c.services ing) k
          = some (Watcher.portLoop svc.Spec.Ports GoMap.empty) := by
    intro k hk
    rcases portsOf_cases c.services ing with h0 | ⟨backend, service, svc, hb, hs, hg, hp⟩
    · rw [h0] at hk
      simp [GoMap.keys] at hk
    · rw [hp] at hk
      simp only [GoMap.keys, List.map_cons, List.map_nil, List.mem_singleton] at hk
      have hname := (servicesGet_some hg).2.2
      subst hk
      refine ⟨⟨backend, service, hb, hs, hname.symm⟩, svc, ?_, rfl, ?_⟩
      · rw [hname]; exact hg
      · rw [hp]; simp [GoMap.get]
  refine ⟨hing, ?_, ?_⟩
  · intro k hk
    obtain ⟨⟨backend, service, hb, hs, hn⟩, hsvc⟩ := hkeys k hk
    exact ⟨⟨backend, service, Or.inl hb, hs, hn⟩, hsvc⟩
  · intro name hnone
    have hnot : name ∉ GoMap.keys (portsOf c.services ing) := by
      intro hk
      obtain ⟨_, svc, hg, _⟩ := hkeys name hk
      simp only at hnone
      rw [hnone] at hg
      exact absurd hg (by simp)
    refine ⟨hnot, ?_⟩
    cases hget : GoMap.get (portsOf c.services ing) name with
    | none => rfl
    | some v => exact absurd ((GoMap.mem_keys_iff _ _).2 ⟨v, hget⟩) hnot

/-- Instance of C3: rule `r1` with `svc-a` present; `svc-missing` is not a key. -/
theorem c3_service_ports_keys_witness :
    Watcher.onChange sampleKeyPair cachesR1 = Outcome.ok [payloadR1] ∧
    (r1 ∈ [r1] ∧
    (∀ k ∈ GoMap.keys [("svc-a", [("http", (8080 : Int))])],
      (∃ backend service,
        (r1.Spec.DefaultBackend = some backend ∨
          ∃ rule ∈ r1.Spec.Rules, ∃ http, rule.HTTP = some http ∧
            ∃ path ∈ http.Paths, path.Backend = backend) ∧
        backend.Service = some service ∧ service.Name = k) ∧
      ∃ svc, servicesGet cachesR1.services r1.Namespace k = some svc ∧ svc.Name = k ∧
        GoMap.get [("svc-a", [("http", (8080 : Int))])] k
          = some (Watcher.portLoop svc.Spec.Ports GoMap.empty)) ∧
    (∀ name, servicesGet cachesR1.services r1.Namespace name = none →
      name ∉ GoMap.keys [("svc-a", [("http", (8080 : Int))])] ∧
      GoMap.get [("svc-a", [("http", (8080 : Int))])] name = none)) :=
  ⟨by decide,
   c3_service_ports_keys sampleKeyPair cachesR1 [r1] payloadR1
     ⟨r1, [("svc-a", [("http", 8080)])]⟩ rfl (by decide) (by decide)⟩

/-- Claim C4, evaluated where it fails. Rule `r-bare` has no backend, no TLS
binding and one host rule without an HTTP path set; listing succeeds, the pass
panics and the sink receives nothing. -/
theorem c4_bare_host_rule_panics :
    cachesBare.ingressList = Except.ok [rBare] ∧
    rBare.Spec.Rules = [⟨"example.com", none⟩] ∧
    Watcher.onChange sampleKeyPair cachesBare = Outcome.panic := by
  refine ⟨rfl, rfl, ?_⟩
  decide

/-- Claim C5. In a pass that delivers a payload, a name is a key of
`TLSCertificates` exactly when some listed rule has a TLS binding with that
non-empty secret name whose secret is found in the rule's namespace and whose
`tls.crt` / `tls.key` bytes parse; and every stored value is the parse result
of such a binding. -/
theorem c5_tls_certificates_keys {Cert : Type}
    (X509KeyPair : List Nat → List Nat → Option Cert) (c : Caches) (ingresses : List Ingress)
    (p : Payload Cert) (name : String)
    (hlist : c.ingressList = Except.ok ingresses)
    (hdeliv : Watcher.onChange X509KeyPair c = Outcome.ok [p]) :
    (name ∈ GoMap.keys p.TLSCertificates ↔
      ∃ ing ∈ ingresses, ∃ rec ∈ ing.Spec.TLS, rec.SecretName = name ∧ name ≠ "" ∧
        ∃ secret cert, secretsGet c.secrets ing.Namespace name = some secret ∧
          X509KeyPair (dataAt secret "tls.crt") (dataAt secret "tls.key") = some cert) ∧
    (∀ cert, GoMap.get p.TLSCertificates name = some cert →
      ∃ ing ∈ ingresses, ∃ rec ∈ ing.Spec.TLS, rec.SecretName = name ∧ name ≠ "" ∧
        ∃ secret, secretsGet c.secrets ing.Namespace name = some secret ∧
          X509KeyPair (dataAt secret "tls.crt") (dataAt secret "tls.key") = some cert) := by
  obtain ⟨_, hT⟩ := onChange_delivered hlist hdeliv
  rw [hT]
  constructor
  · rw [setAll_empty_mem_keys, mem_keys_allTLSWrites]
    constructor
    · rintro ⟨ing, hing, rec, hrec, hk, hn, cert, hres⟩
      obtain ⟨secret, hsec, hx⟩ := (resolveTLS_eq_some _ _ _ _ _).1 hres
      exact ⟨ing, hing, rec, hrec, hk, hn, secret, cert, hsec, hx⟩
    · rintro ⟨ing, hing, rec, hrec, hk, hn, secret, cert, hsec, hx⟩
      exact ⟨ing, hing, rec, hrec, hk, hn, cert,
        (resolveTLS_eq_some _ _ _ _ _).2 ⟨secret, hsec, hx⟩⟩
  · intro cert hget
    rw [setAll_empty_get] at hget
    obtain ⟨ing, hing, rec, hrec, hk, hn, hres⟩ :=
      (mem_allTLSWrites _ _ _ _ _).1 (lastFor_some_mem _ _ _ hget)
    obtain ⟨secret, hsec, hx⟩ := (resolveTLS_eq_some _ _ _ _ _).1 hres
    exact ⟨ing, hing, rec, hrec, hk, hn, secret, hsec, hx⟩

/-- Instance of C5 on the scenario `r2` / `tls-a`, together with the pass run
after the secret was removed. -/
theorem c5_tls_certificates_keys_witness :
    Watcher.onChange sampleKeyPair cachesR2 = Outcome.ok [payloadR2] ∧
    Watcher.onChange sampleKeyPair ⟨Except.ok [r2], [], []⟩ = Outcome.ok [⟨[⟨r2, []⟩], []⟩] ∧
    (("tls-a" ∈ GoMap.keys payloadR2.TLSCertificates ↔
      ∃ ing ∈ [r2], ∃ rec ∈ ing.Spec.TLS, rec.SecretName = "tls-a" ∧ "tls-a" ≠ "" ∧
        ∃ secret cert, secretsGet cachesR2.secrets ing.Namespace "tls-a" = some secret ∧
          sampleKeyPair (dataAt secret "tls.crt") (dataAt secret "tls.key") = some cert) ∧
    (∀ cert, GoMap.get payloadR2.TLSCertificates "tls-a" = some cert →
      ∃ ing ∈ [r2], ∃ rec ∈ ing.Spec.TLS, rec.SecretName = "tls-a" ∧ "tls-a" ≠ "" ∧
        ∃ secret, secretsGet cachesR2.secrets ing.Namespace "tls-a" = some secret ∧
          sampleKeyPair (dataAt secret "tls.crt") (dataAt secret "tls.key") = some cert)) :=
  ⟨by decide, by decide,
   c5_tls_certificates_keys sampleKeyPair cachesR2 [r2] payloadR2 "tls-a" rfl (by decide)⟩

/-- Claim C6 fails as stated. Rules `ns1/ra` and `ns2/rb` both bind the secret
name `tls-a`; each namespace holds its own `tls-a`. The delivered map has the
single entry parsed from `ns2/tls-a`, which is not the certificate that `ra`
resolves to in its own namespace. -/
theorem c6_shared_name_diverges :
    cachesShared.ingressList = Except.ok [ra, rb] ∧
    ra.Spec.TLS = [⟨[], "tls-a"⟩] ∧ rb.Spec.TLS = [⟨[], "tls-a"⟩] ∧
    Watcher.onChange sampleKeyPair cachesShared
      = Outcome.ok [⟨[⟨ra, []⟩, ⟨rb, []⟩], [("tls-a", ([2], [2]))]⟩] ∧
    resolveTLS sampleKeyPair cachesShared.secrets ra.Namespace "tls-a" = some ([1], [1]) ∧
    resolveTLS sampleKeyPair cachesShared.secrets rb.Namespace "tls-a" = some ([2], [2]) ∧
    GoMap.get [("tls-a", (([2], [2]) : List Nat × List Nat))] "tls-a" ≠ some ([1], [1]) := by
  refine ⟨rfl, rfl, rfl, ?_, ?_, ?_, ?_⟩ <;> decide

/-- Claim C6, amended. In a pass that delivers a payload, for two listed rules
`a` and `b` with TLS bindings to one non-empty secret name: the map has at most
one entry for the name; a stored entry is the certificate that some listed rule
bound to the name resolves to in its own namespace; and when every listed rule
bound to the name resolves it as `a` does, and `a` resolves it to a certificate,
the map has exactly one entry for the name, it is that certificate, and `b`
resolves to it too. -/
theorem c6_shared_secret_name {Cert : Type}
    (X509KeyPair : List Nat → List Nat → Option Cert) (c : Caches) (ingresses : List Ingress)
    (p : Payload Cert) (a b : Ingress) (ta tb : IngressTLS) (name : String)
    (hlist : c.ingressList = Except.ok ingresses)
    (hdeliv : Watcher.onChange X509KeyPair c = Outcome.ok [p])
    (ha : a ∈ ingresses) (hb : b ∈ ingresses)
    (hta : ta ∈ a.Spec.TLS) (htb : tb ∈ b.Spec.TLS)
    (hna : ta.SecretName = name) (hnb : tb.SecretName = name) (hne : name ≠ "") :
    (GoMap.keys p.TLSCertificates).count name ≤ 1 ∧
    (∀ cert, GoMap.get p.TLSCertificates name = some cert →
      ∃ ing ∈ ingresses, ∃ rec ∈ ing.Spec.TLS, rec.SecretName = name ∧
        resolveTLS X509KeyPair c.secrets ing.Namespace name = some cert) ∧
    ((∀ ing ∈ ingresses, ∀ rec ∈ ing.Spec.TLS, rec.SecretName = name →
        resolveTLS X509KeyPair c.secrets ing.Namespace name
          = resolveTLS X509KeyPair c.secrets a.Namespace name) →
      ∀ cert, resolveTLS X509KeyPair c.secrets a.Namespace name = some cert →
        (GoMap.keys p.TLSCertificates).count name = 1 ∧
        GoMap.get p.TLSCertificates name = some cert ∧
        resolveTLS X509KeyPair c.secrets b.Namespace name = some cert) := by
  obtain ⟨_, hT⟩ := onChange_delivered hlist hdeliv
  have hnodup : (GoMap.keys p.TLSCertificates).Nodup := by
    rw [hT]
    exact setAll_nodup _ _ (by simp [GoMap.empty, GoMap.keys])
  have hentry : ∀ cert, GoMap.get p.TLSCertificates name = some cert →
      ∃ ing ∈ ingresses, ∃ rec ∈ ing.Spec.TLS, rec.SecretName = name ∧
        resolveTLS X509KeyPair c.secrets ing.Namespace name = some cert := by
    intro cert hget
    rw [hT, setAll_empty_get] at hget
    obtain ⟨ing, hing, rec, hrec, hk, _, hres⟩ :=
      (mem_allTLSWrites _ _ _ _ _).1 (lastFor_some_mem _ _ _ hget)
    exact ⟨ing, hing, rec, hrec, hk, hres⟩
  refine ⟨List.nodup_iff_count_le_one.1 hnodup name, hentry, ?_⟩
  intro hsame cert hres
  have hkey : name ∈ GoMap.keys p.TLSCertificates := by
    rw [hT, setAll_empty_mem_keys, mem_keys_allTLSWrites]
    exact ⟨a, ha, ta, hta, hna, hne, cert, hres⟩
  refine ⟨List.count_eq_one_of_mem hnodup hkey, ?_, ?_⟩
  · obtain ⟨v, hv⟩ := (GoMap.mem_keys_iff _ _).1 hkey
    obtain ⟨ing, hing, rec, hrec, hk, hr⟩ := hentry v hv
    rw [hsame ing hing rec hrec hk, hres] at hr
    rw [hv, ← Option.some.inj hr]
  · rw [hsame b hb tb htb hnb, hres]

/-- Instance of amended C6: `r2` and `r3` live in one namespace and share
`tls-a`. -/
theorem c6_shared_secret_name_witness :
    Watcher.onChange sampleKeyPair cachesSameNs = Outcome.ok [payloadSameNs] ∧
    ((GoMap.keys payloadSameNs.TLSCertificates).count "tls-a" ≤ 1 ∧
    (∀ cert, GoMap.get payloadSameNs.TLSCertificates "tls-a" = some cert →
      ∃ ing ∈ [r2, r3], ∃ rec ∈ ing.Spec.TLS, rec.SecretName = "tls-a" ∧
        resolveTLS sampleKeyPair cachesSameNs.secrets ing.Namespace "tls-a" = some cert) ∧
    ((∀ ing ∈ [r2, r3], ∀ rec ∈ ing.Spec.TLS, rec.SecretName = "tls-a" →
        resolveTLS sampleKeyPair cachesSameNs.secrets ing.Namespace "tls-a"
          = resolveTLS sampleKeyPair cachesSameNs.secrets r2.Namespace "tls-a") →
      ∀ cert, resolveTLS sampleKeyPair cachesSameNs.secrets r2.Namespace "tls-a" = some cert →
        (GoMap.keys payloadSameNs.TLSCertificates).count "tls-a" = 1 ∧
        GoMap.get payloadSameNs.TLSCertificates "tls-a" = some cert ∧
        resolveTLS sampleKeyPair cachesSameNs.secrets r3.Namespace "tls-a" = some cert)) :=
  ⟨by decide,
   c6_shared_secret_name sampleKeyPair cachesSameNs [r2, r3] payloadSameNs r2 r3
     ⟨["example.com"], "tls-a"⟩ ⟨["example.org"], "tls-a"⟩ "tls-a" rfl (by decide)
     (by decide) (by decide) (by decide) (by decide) rfl rfl (by decide)⟩

/-- Claim C7, evaluated where it fails. Listing succeeds with `r1` followed by
`r-bare`, whose host rule has no HTTP path set: the pass panics and the sink is
not invoked. The same happens for `r-res`, whose default backend names no
service. -/
theorem c7_pass_panics_on_rule_shape :
    cachesMixed.ingressList = Except.ok [r1, rBare] ∧
    Watcher.onChange sampleKeyPair cachesMixed = Outcome.panic ∧
    cachesRes.ingressList = Except.ok [rRes] ∧
    Watcher.onChange sampleKeyPair cachesRes = Outcome.panic := by
  refine ⟨rfl, ?_, rfl, ?_⟩ <;> decide

/-- Claim C8. When listing the routing rules fails, the pass returns without a
panic and the sink has been invoked with no payload at all. -/
theorem c8_listing_failure_abandons {Cert : Type}
    (X509KeyPair : List Nat → List Nat → Option Cert) (c : Caches) (err : String)
    (hlist : c.ingressList = Except.error err) :
    Watcher.onChange X509KeyPair c = Outcome.ok [] := by
  unfold Watcher.onChange
  rw [hlist]

/-- Instance of C8 on caches whose listing reports an error. -/
theorem c8_listing_failure_abandons_witness :
    cachesListErr.ingressList = Except.error "cache not synced" ∧
    Watcher.onChange sampleKeyPair cachesListErr = Outcome.ok [] :=
  ⟨rfl, c8_listing_failure_abandons sampleKeyPair cachesListErr "cache not synced" rfl⟩

/-- Claim C9. The reconcile entry point returns the error `e` exactly when
the fetch failed with `e` and `e` is not a not-found error; the result is always
the empty one; and a fetch that succeeds or reports not-found gives the empty
result with no error. -/
theorem c9_reconcile_error_iff {Err : Type} (IsNotFound : Err → Bool) (getErr : Option Err) :
    (∀ e, (IngressReconciler.Reconcile IsNotFound getErr).2 = some e ↔
      (getErr = some e ∧ IsNotFound e = false)) ∧
    (IngressReconciler.Reconcile IsNotFound getErr).1 = Result.zero ∧
    ((getErr = none ∨ ∃ e, getErr = some e ∧ IsNotFound e = true) →
      IngressReconciler.Reconcile IsNotFound getErr = (Result.zero, none)) := by
  unfold IngressReconciler.Reconcile
  cases getErr with
  | none => simp
  | some err =>
    cases h : IsNotFound err with
    | true => simp [h]
    | false =>
      simp only [h, Bool.false_eq_true, if_false]
      refine ⟨?_, trivial, ?_⟩
      · intro e
        constructor
        · intro he
          simp only [Option.some.injEq] at he
          subst he
          exact ⟨rfl, h⟩
        · rintro ⟨he, _⟩
          exact he
      · rintro (h0 | ⟨e, he, hnf⟩)
        · exact absurd h0 (by simp)
        · simp only [Option.some.injEq] at he
          subst he
          rw [h] at hnf
          exact absurd hnf (by simp)

/-- Instance of C9 on a fetch that failed with a non-not-found error. -/
theorem c9_reconcile_error_iff_witness :
    (∀ e, (IngressReconciler.Reconcile sampleIsNotFound (some "Timeout")).2 = some e ↔
      (some "Timeout" = some e ∧ sampleIsNotFound e = false)) ∧
    (IngressReconciler.Reconcile sampleIsNotFound (some "Timeout")).1 = Result.zero ∧
    ((some "Timeout" = none ∨ ∃ e, some "Timeout" = some e ∧ sampleIsNotFound e = true) →
      IngressReconciler.Reconcile sampleIsNotFound (some "Timeout") = (Result.zero, none)) :=
  c9_reconcile_error_iff sampleIsNotFound (some "Timeout")

end Controllers
